import Mathlib

/-!
Verification development for the financial chat bot (src/main.py).

The bot is a thin conversation controller over a quote-provider HTTP API
and a small SQLite store.  We shallowly embed the pieces of the program
the specification talks about:

* Python strings are modeled as lists of characters (`PyStr`); Python
  `str` methods used by the program (`split`, `strip`, `upper`, slicing,
  the `in` substring test) are defined below on that type.
* Python floats are modeled as rationals (`Rat`); the decimal literals
  the program handles are exact in both representations.
* JSON values returned by the provider are modeled by `Json` (string and
  object nodes, the shapes the program inspects); a transport error or a
  body that fails JSON decoding is the `FetchOutcome.raises` case, since
  both surface as an exception inside the `try` block.
* Python exceptions are modeled with `Except PyErr`; a `try/except`
  becomes a `match` on that result.
-/

namespace FinancialBot

/-- A Python string: a list of characters. -/
abbrev PyStr := List Char

/-- Embed a Lean string literal as a `PyStr`. -/
def pystr (s : String) : PyStr := s.data

/-- Whitespace for `str.strip()` / `str.split()` (the ASCII whitespace the
program can meet in a chat message). -/
def pyIsSpace (c : Char) : Bool :=
  c = ' ' || c = '\t' || c = '\n' || c = '\r' || c = '\x0b' || c = '\x0c'

/-- Python `str.strip()`: drop whitespace from both ends. -/
def pyStrip (s : PyStr) : PyStr :=
  ((s.dropWhile pyIsSpace).reverse.dropWhile pyIsSpace).reverse

/-- Python `str.upper()` (ASCII case mapping; the tickers the program
handles are ASCII). -/
def pyUpper (s : PyStr) : PyStr := s.map Char.toUpper

/-- Helper for `pySplitWs`: accumulate the current word (in reverse). -/
def pySplitWsAux : PyStr → PyStr → List PyStr
  | [], acc => if acc.isEmpty then [] else [acc.reverse]
  | c :: rest, acc =>
    if pyIsSpace c then
      if acc.isEmpty then pySplitWsAux rest []
      else acc.reverse :: pySplitWsAux rest []
    else pySplitWsAux rest (c :: acc)

/-- Python `str.split()` with no argument: split on runs of whitespace,
discarding empty tokens. -/
def pySplitWs (s : PyStr) : List PyStr := pySplitWsAux s []

/-- Python `str.split(sep)` for a one-character separator: split at every
occurrence, keeping empty pieces.  Never returns the empty list. -/
def pySplitOn (sep : Char) : PyStr → List PyStr
  | [] => [[]]
  | c :: rest =>
    if c = sep then [] :: pySplitOn sep rest
    else
      match pySplitOn sep rest with
      | [] => [[c]]
      | r :: rs => (c :: r) :: rs

/-- Does `pat` start the list `s`?  (Helper for the substring test.) -/
def pyStartsWith : PyStr → PyStr → Bool
  | [], _ => true
  | _ :: _, [] => false
  | a :: as, b :: bs => a = b && pyStartsWith as bs

/-- Python `pat in s` on strings: contiguous substring containment. -/
def pyContains (pat : PyStr) : PyStr → Bool
  | [] => pyStartsWith pat []
  | s@(_ :: rest) => pyStartsWith pat s || pyContains pat rest

/-- ASCII digit test. -/
def pyIsDigit (c : Char) : Bool := '0' ≤ c && c ≤ '9'

/-- Numeric value of a digit list, most significant first. -/
def digitsToNat (ds : PyStr) : Nat :=
  ds.foldl (fun n c => n * 10 + (c.toNat - '0'.toNat)) 0

/-- Strip an optional leading sign, returning the sign as `1` or `-1`. -/
def parseSign : PyStr → Int × PyStr
  | '+' :: r => (1, r)
  | '-' :: r => (-1, r)
  | s => (1, s)

/-- Python `int(str)`: surrounding whitespace ignored, optional sign,
then a nonempty run of digits; anything else raises `ValueError`
(modeled as `none`).  Underscore separators and non-ASCII digits are not
modeled; the program never feeds them. -/
def pyIntParse (s0 : PyStr) : Option Int :=
  let p := parseSign (pyStrip s0)
  if p.2 ≠ [] ∧ p.2.all pyIsDigit then some (p.1 * digitsToNat p.2)
  else none

/-- Python `float(str)` on plain decimal literals: surrounding whitespace
ignored, optional sign, digits with an optional decimal point, at least
one digit overall; anything else raises `ValueError` (modeled as
`none`).  Exponent forms, `inf`/`nan` and underscore separators are not
modeled; the program never feeds them. -/
def pyFloatParse (s0 : PyStr) : Option Rat :=
  let p := parseSign (pyStrip s0)
  let intPart := p.2.takeWhile pyIsDigit
  let rest := p.2.dropWhile pyIsDigit
  match rest with
  | [] =>
    if intPart = [] then none
    else some (p.1 * (digitsToNat intPart : Rat))
  | '.' :: r2 =>
    let fracPart := r2.takeWhile pyIsDigit
    if r2.dropWhile pyIsDigit ≠ [] then none
    else if intPart = [] ∧ fracPart = [] then none
    else some ((p.1 : Rat) *
      ((digitsToNat intPart : Rat) +
        (digitsToNat fracPart : Rat) / (10 : Rat) ^ fracPart.length))
  | _ => none

/-! ## JSON and the provider -/

/-- The JSON shapes the program inspects: strings (every Alpha Vantage
quote field is a string) and objects. -/
inductive Json where
  | str : PyStr → Json
  | obj : List (PyStr × Json) → Json

/-- Model of `dict.get(key)` on a modeled JSON object (first binding wins, as a
Python dict holds each key once). -/
def assocLookup (fields : List (PyStr × Json)) (key : PyStr) : Option Json :=
  match fields.find? (fun p => p.1 == key) with
  | some p => some p.2
  | none => none

/-- One provider round trip, as seen inside the `try` block:
either `response.json()` produced a value, or the request / JSON
decoding raised (transport error, malformed body). -/
inductive FetchOutcome where
  | raises : FetchOutcome
  | body : Json → FetchOutcome

/-- The Python exceptions the modeled code can raise. -/
inductive PyErr where
  | valueError : PyErr
  | typeError : PyErr
  | attributeError : PyErr
  | zeroDivisionError : PyErr
  | transport : PyErr
deriving DecidableEq

/-- The record `get_stock_data` builds from the `Global Quote` object.
`symbol` and `change_percent` are stored raw (the source applies no
conversion to them); the numeric fields go through `float()` / `int()`.
`open` is a Lean keyword, hence `open_price`. -/
structure Quote where
  symbol : Json
  price : Rat
  change : Rat
  change_percent : Json
  volume : Int
  high : Rat
  low : Rat
  open_price : Rat
  previous_close : Rat

/-- Model of `float(quote.get(key, 0))`: a missing field defaults to `float(0) = 0`;
a present string field must parse or `float` raises `ValueError`; a
present object raises `TypeError`. -/
def floatOfGet (q : List (PyStr × Json)) (key : PyStr) : Except PyErr Rat :=
  match assocLookup q key with
  | none => .ok 0
  | some (.str s) =>
    match pyFloatParse s with
    | some r => .ok r
    | none => .error .valueError
  | some (.obj _) => .error .typeError

/-- Model of `int(quote.get(key, 0))`: same shape with `int()`. -/
def intOfGet (q : List (PyStr × Json)) (key : PyStr) : Except PyErr Int :=
  match assocLookup q key with
  | none => .ok 0
  | some (.str s) =>
    match pyIntParse s with
    | some n => .ok n
    | none => .error .valueError
  | some (.obj _) => .error .typeError

/-- Model of `quote.get(key, default)` with no conversion applied. -/
def rawGet (q : List (PyStr × Json)) (key : PyStr) (dflt : Json) : Json :=
  match assocLookup q key with
  | some v => v
  | none => dflt

/-- Building the returned dict from the `Global Quote` object, field by
field in source order; the first failing conversion raises (written as
explicit matches, one per fallible conversion). -/
def quoteOfFields (q : List (PyStr × Json)) : Except PyErr Quote :=
  match floatOfGet q (pystr "05. price") with
  | .error e => .error e
  | .ok price =>
  match floatOfGet q (pystr "09. change") with
  | .error e => .error e
  | .ok change =>
  match intOfGet q (pystr "06. volume") with
  | .error e => .error e
  | .ok volume =>
  match floatOfGet q (pystr "03. high") with
  | .error e => .error e
  | .ok high =>
  match floatOfGet q (pystr "04. low") with
  | .error e => .error e
  | .ok low =>
  match floatOfGet q (pystr "02. open") with
  | .error e => .error e
  | .ok open_price =>
  match floatOfGet q (pystr "08. previous close") with
  | .error e => .error e
  | .ok previous_close =>
    .ok { symbol := rawGet q (pystr "01. symbol") (.str [])
          price, change
          change_percent := rawGet q (pystr "10. change percent")
            (.str (pystr "0%"))
          volume, high, low, open_price, previous_close }

/-- The body of `get_stock_data`'s `try` block.  `.ok none` is the
implicit `return None` when `Global Quote` is absent; a string body on
which `in` succeeds raises `TypeError` at the subscript, and a string
under the `Global Quote` key raises `AttributeError` at `quote.get`. -/
def getStockDataTry : FetchOutcome → Except PyErr (Option Quote)
  | .raises => .error .transport
  | .body (.str s) =>
    if pyContains (pystr "Global Quote") s then .error .typeError
    else .ok none
  | .body (.obj fields) =>
    match assocLookup fields (pystr "Global Quote") with
    | none => .ok none
    | some (.str _) => .error .attributeError
    | some (.obj q) =>
      match quoteOfFields q with
      | .error e => .error e
      | .ok quote => .ok (some quote)

/-- Function `get_stock_data`: the `try` body with `except Exception` turning
every raise into `return None`. -/
def get_stock_data (resp : FetchOutcome) : Option Quote :=
  match getStockDataTry resp with
  | .error _ => none
  | .ok v => v

/-- Function `get_company_overview`: returns the decoded body when it carries a
`Symbol` marker, `None` otherwise; any raise inside the `try` also
yields `None`.  A string body is returned as-is when the Python `in`
substring test finds `Symbol` in it, exactly as the source would. -/
def get_company_overview : FetchOutcome → Option Json
  | .raises => none
  | .body (.str s) =>
    if pyContains (pystr "Symbol") s then some (.str s) else none
  | .body (.obj fields) =>
    if (assocLookup fields (pystr "Symbol")).isSome then some (.obj fields)
    else none

/-! ## User store (SQLite tables as lists of rows) -/

/-- A row of the `users` table.  `created_at` holds the commit-time
`CURRENT_TIMESTAMP`, modeled as an abstract tick. -/
structure UserRow where
  user_id : Int
  username : PyStr
  first_name : PyStr
  created_at : Nat

/-- A row of the `watchlist` table (`id` autoincrement is the list
position; `added_at` does not matter to any claim and is omitted from
the row, the insertion order carries it). -/
structure WatchRow where
  user_id : Int
  ticker : PyStr

/-- Function `save_user`: `INSERT OR REPLACE INTO users (user_id, username,
first_name) VALUES (?,?,?)`.  SQLite resolves the primary-key conflict
by deleting any existing row with this `user_id` and inserting a fresh
one; `created_at` is not in the column list, so the fresh row takes the
default `CURRENT_TIMESTAMP`, passed here as `now`. -/
def save_user (table : List UserRow) (now : Nat) (uid : Int)
    (username first_name : PyStr) : List UserRow :=
  table.filter (fun r => !(r.user_id == uid)) ++
    [{ user_id := uid, username, first_name, created_at := now }]

/-- The rows of the users table holding a given id. -/
def usersWithId (table : List UserRow) (uid : Int) : List UserRow :=
  table.filter (fun r => r.user_id == uid)

/-- Function `add_to_watchlist`: `INSERT INTO watchlist (user_id, ticker) VALUES
(?, ?)` with `ticker.upper()` — a plain append, no duplicate check. -/
def add_to_watchlist (table : List WatchRow) (uid : Int) (ticker : PyStr) :
    List WatchRow :=
  table ++ [{ user_id := uid, ticker := pyUpper ticker }]

/-- Function `get_watchlist`: `SELECT ticker FROM watchlist WHERE user_id = ?`,
rows in rowid (insertion) order. -/
def get_watchlist (table : List WatchRow) (uid : Int) : List PyStr :=
  (table.filter (fun r => r.user_id == uid)).map (fun r => r.ticker)

/-! ## Conversation controller -/

/-- Per-user conversation state: no FSM state set (after `state.clear()`)
is `idle`; `UserStates.waiting_for_ticker` and
`UserStates.calculator_input` are the two waiting states the claims
concern (`setting_alert` is declared in the source but never entered). -/
inductive ConvState where
  | idle : ConvState
  | awaitingTicker : ConvState
  | awaitingCalc : ConvState
deriving DecidableEq

/-- The per-turn provider behavior: what one `GLOBAL_QUOTE` round trip
for a given ticker yields during this handler run. -/
abbrev Provider := PyStr → FetchOutcome

/-- What `send_stock_analysis` answers after its acknowledgement. -/
inductive TickerReply where
  | notFound : PyStr → TickerReply
  | analysis : Quote → PyStr → PyStr → TickerReply

/-- Function `send_stock_analysis`: fetch the quote; absent → not-found message;
otherwise the analysis text plus the two inline buttons, whose callback
payloads are built by f-string concatenation on the ticker. -/
def send_stock_analysis (provider : Provider) (ticker : PyStr) : TickerReply :=
  match get_stock_data (provider ticker) with
  | none => .notFound ticker
  | some sd =>
    .analysis sd (pystr "add_watchlist_" ++ ticker) (pystr "overview_" ++ ticker)

/-- Handler `process_ticker` (the `waiting_for_ticker` handler): uppercase and
strip the text, run the analysis flow, then `state.clear()` — every path
ends in `idle`. -/
def process_ticker (provider : Provider) (text : PyStr) : ConvState × TickerReply :=
  (.idle, send_stock_analysis provider (pyStrip (pyUpper text)))

/-- The parsed-payload view of `add_watchlist_` callbacks:
`callback.data.split("_")[2]`; `none` models the `IndexError` when fewer
than three pieces exist (never the case for payloads this program
builds). -/
def parseAddWatchlistPayload (data : PyStr) : Option PyStr :=
  (pySplitOn '_' data)[2]?

/-- The result record the calculator renders. -/
structure CalcOutput where
  ticker : PyStr
  current_price : Rat
  shares : Int
  buy_price : Rat
  total_invested : Rat
  current_value : Rat
  profit_loss : Rat
  profit_percent : Rat
  profit_emoji : PyStr

/-- What `process_calculator` answers. -/
inductive CalcReply where
  | formatError : CalcReply
  | calcNotFound : CalcReply
  | calcResult : CalcOutput → CalcReply

/-- How the calculator `try` block exits when it does not raise: the
explicit `return` after the failed fetch (which leaves the handler
before `state.clear()`), or falling through after answering. -/
inductive CalcExit where
  | earlyReturn : CalcReply → CalcExit
  | done : CalcReply → CalcExit

/-- The `try` block of `process_calculator`: split the text, require
exactly three tokens, parse `int` shares and `float` buy price, fetch
the quote for the uppercased ticker, and compute the position.  Dividing
by a zero `total_invested` raises `ZeroDivisionError` (modeled by the
explicit branch, since `Rat` division by zero would silently return 0). -/
def calcTry (provider : Provider) (text : PyStr) : Except PyErr CalcExit :=
  match pySplitWs (pyStrip text) with
  | [ticker, sharesStr, buyPriceStr] =>
    match pyIntParse sharesStr with
    | none => .error .valueError
    | some shares =>
      match pyFloatParse buyPriceStr with
      | none => .error .valueError
      | some buy_price =>
        match get_stock_data (provider (pyUpper ticker)) with
        | none => .ok (.earlyReturn .calcNotFound)
        | some sd =>
          let current_price := sd.price
          let total_invested := (shares : Rat) * buy_price
          let current_value := (shares : Rat) * current_price
          let profit_loss := current_value - total_invested
          if total_invested = 0 then .error .zeroDivisionError
          else
            let profit_percent := profit_loss / total_invested * 100
            let profit_emoji :=
              if profit_loss > 0 then pystr "📈" else pystr "📉"
            .ok (.done (.calcResult
              { ticker := pyUpper ticker, current_price, shares, buy_price,
                total_invested, current_value, profit_loss, profit_percent,
                profit_emoji }))
  | _ => .error .valueError

/-- Handler `process_calculator` (the `calculator_input` handler), started in
`awaitingCalc`: a raise is caught and answered with the format-error
template, then `state.clear()`; the early `return` (quote absent) exits
the handler before `state.clear()`, leaving the state unchanged; the
normal path answers and clears. -/
def process_calculator (provider : Provider) (text : PyStr) :
    ConvState × CalcReply :=
  match calcTry provider text with
  | .error _ => (.idle, .formatError)
  | .ok (.earlyReturn r) => (.awaitingCalc, r)
  | .ok (.done r) => (.idle, r)

/-! ## Watch-list rendering -/

/-- One line of the watch-list message: the loop body appends exactly one
of these per ticker (the decimal formatting of `price` is carried as the
value itself). -/
inductive WatchLine where
  | data : PyStr → PyStr → Rat → Json → WatchLine
  | unavailable : PyStr → WatchLine

/-- The loop body of `watchlist_command` for one ticker. -/
def watchLineFor (provider : Provider) (ticker : PyStr) : WatchLine :=
  match get_stock_data (provider ticker) with
  | some sd =>
    .data (if sd.change > 0 then pystr "📈" else pystr "📉") ticker
      sd.price sd.change_percent
  | none => .unavailable ticker

/-- What `watchlist_command` answers. -/
inductive WatchReply where
  | emptyList : WatchReply
  | listing : List WatchLine → WatchReply

/-- Function `watchlist_command`: read the stored list; an empty list answers the
empty-list hint; otherwise the loop appends one line per ticker, in
stored order, to the header text. -/
def watchlist_command (provider : Provider) (table : List WatchRow)
    (uid : Int) : WatchReply :=
  let watchlist := get_watchlist table uid
  if watchlist.isEmpty then .emptyList
  else .listing (watchlist.foldl (fun acc t => acc ++ [watchLineFor provider t]) [])

/-! ## Company overview rendering -/

/-- The fragment `{overview_data.get('Description', '...')[:500]}...` of
the overview f-string: slicing raises `TypeError` when the value under
`Description` is not a string, and `.get` raises `AttributeError` when
the overview data itself is a bare string. -/
def overviewDescriptionFragment : Json → Except PyErr PyStr
  | .str _ => .error .attributeError
  | .obj fields =>
    match rawGet fields (pystr "Description") (.str (pystr "Опис недоступний")) with
    | .str d => .ok (d.take 500 ++ pystr "...")
    | .obj _ => .error .typeError

/-- What `send_company_overview` produces (beyond its acknowledgement);
the message fields other than the description are not needed by any
claim and are not carried. -/
inductive OverviewReply where
  | noData : OverviewReply
  | rendered : PyStr → OverviewReply
  | uncaught : PyErr → OverviewReply

/-- Function `send_company_overview`: fetch the overview; absent → no-data
message; otherwise render, the description fragment truncating to 500
characters plus the `...` continuation marker.  A raise while rendering
escapes the handler (there is no `try` here). -/
def send_company_overview (resp : FetchOutcome) : OverviewReply :=
  match get_company_overview resp with
  | none => .noData
  | some data =>
    match overviewDescriptionFragment data with
    | .error e => .uncaught e
    | .ok d => .rendered d

/-! ## Helper lemmas -/

/-- Rows kept by the replace-step of `save_user` never carry the replaced
id, so filtering for that id afterwards yields nothing. -/
lemma filter_keep_of_filter_drop (table : List UserRow) (uid : Int) :
    (table.filter (fun r => !(r.user_id == uid))).filter
        (fun r => r.user_id == uid) = [] := by
  induction table with
  | nil => rfl
  | cons r t ih =>
    by_cases h : r.user_id = uid <;>
      simp [List.filter_cons, h, ih]

/-- After `save_user`, the rows holding the saved id are exactly the one
fresh row. -/
lemma usersWithId_save_user (table : List UserRow) (now : Nat) (uid : Int)
    (username first_name : PyStr) :
    usersWithId (save_user table now uid username first_name) uid =
      [{ user_id := uid, username, first_name, created_at := now }] := by
  unfold usersWithId save_user
  rw [List.filter_append, filter_keep_of_filter_drop]
  simp [List.filter_cons]

/-! ## Claims about the user store -/

/-- C4: calling `save_user` twice with the same id and different
username/display values leaves exactly one stored row for that id, and
that row carries the second call's username and first name; the model of
`INSERT OR REPLACE` is total, so the duplicate id never raises. -/
theorem save_user_upsert_last_wins (table : List UserRow) (t1 t2 : Nat)
    (uid : Int) (u1 f1 u2 f2 : PyStr) :
    (usersWithId (save_user (save_user table t1 uid u1 f1) t2 uid u2 f2)
        uid).length = 1 ∧
    ∀ r ∈ usersWithId (save_user (save_user table t1 uid u1 f1) t2 uid u2 f2)
        uid, r.username = u2 ∧ r.first_name = f2 := by
  rw [usersWithId_save_user]
  refine ⟨rfl, ?_⟩
  intro r hr
  rw [List.mem_singleton] at hr
  subst hr
  exact ⟨rfl, rfl⟩

/-- C10: an upsert of an existing id does not keep the old row's
`created_at`: `INSERT OR REPLACE` deletes the old row and inserts a
fresh one whose `created_at` defaults to the time of this upsert, so
every surviving row for the id carries the latest commit time. -/
theorem save_user_resets_created_at (table : List UserRow) (now : Nat)
    (uid : Int) (u f : PyStr) :
    usersWithId (save_user table now uid u f) uid =
      [{ user_id := uid, username := u, first_name := f, created_at := now }] ∧
    ∀ r ∈ save_user table now uid u f, r.user_id = uid → r.created_at = now := by
  refine ⟨usersWithId_save_user table now uid u f, ?_⟩
  intro r hr hid
  unfold save_user at hr
  rw [List.mem_append] at hr
  rcases hr with hr | hr
  · have := List.of_mem_filter hr
    simp [hid] at this
  · rw [List.mem_singleton] at hr
    subst hr
    rfl

/-- C5: `add_to_watchlist` appends the upper-cased ticker, so a user's
watch-list grows at the end in call order; a user with no stored rows
reads back the empty list; and adding `"aapl"` makes `"AAPL"` readable. -/
theorem watchlist_add_get_order (table : List WatchRow) (uid : Int)
    (ticker : PyStr) :
    get_watchlist (add_to_watchlist table uid ticker) uid =
      get_watchlist table uid ++ [pyUpper ticker] ∧
    ((∀ r ∈ table, r.user_id ≠ uid) → get_watchlist table uid = []) ∧
    pystr "AAPL" ∈ get_watchlist (add_to_watchlist table uid (pystr "aapl")) uid := by
  have happ : ∀ t : PyStr,
      get_watchlist (add_to_watchlist table uid t) uid =
        get_watchlist table uid ++ [pyUpper t] := by
    intro t
    unfold get_watchlist add_to_watchlist
    rw [List.filter_append, List.map_append]
    simp [List.filter_cons]
  refine ⟨happ ticker, ?_, ?_⟩
  · intro hnone
    unfold get_watchlist
    have : table.filter (fun r => r.user_id == uid) = [] := by
      rw [List.filter_eq_nil_iff]
      intro r hr
      simpa using hnone r hr
    rw [this]
    rfl
  · rw [happ (pystr "aapl")]
    have : pyUpper (pystr "aapl") = pystr "AAPL" := by decide
    rw [this]
    exact List.mem_append_right _ (List.mem_singleton.mpr rfl)

/-! ## Claims about the callback payload encoding -/

/-- Splitting never yields the empty list of pieces. -/
lemma pySplitOn_ne_nil (sep : Char) (s : PyStr) : pySplitOn sep s ≠ [] := by
  induction s with
  | nil => simp [pySplitOn]
  | cons c rest ih =>
    unfold pySplitOn
    by_cases h : c = sep
    · simp [h]
    · rw [if_neg h]
      cases hr : pySplitOn sep rest with
      | nil => simp
      | cons r rs => simp

/-- The first split piece is the run before the first separator. -/
lemma pySplitOn_head (sep : Char) (s : PyStr) :
    (pySplitOn sep s).head? = some (s.takeWhile (fun c => c != sep)) := by
  induction s with
  | nil => rfl
  | cons c rest ih =>
    unfold pySplitOn
    by_cases h : c = sep
    · subst h
      simp [List.takeWhile_cons]
    · rw [if_neg h]
      cases hr : pySplitOn sep rest with
      | nil => exact absurd hr (pySplitOn_ne_nil sep rest)
      | cons r rs =>
        rw [hr] at ih
        simp only [List.head?_cons, Option.some.injEq] at ih
        simp [List.takeWhile_cons, h, ih]

/-- Splitting the built payload isolates the two prefix words. -/
lemma pySplitOn_payload (t : PyStr) :
    pySplitOn '_' (pystr "add_watchlist_" ++ t) =
      pystr "add" :: pystr "watchlist" :: pySplitOn '_' t := rfl

/-- A list with no separator is its own first run. -/
lemma takeWhile_eq_self_of_not_mem (t : PyStr) (h : '_' ∉ t) :
    t.takeWhile (fun c => c != '_') = t := by
  induction t with
  | nil => rfl
  | cons c rest ih =>
    rw [List.mem_cons, not_or] at h
    have hc : c ≠ '_' := fun hh => h.1 hh.symm
    rw [List.takeWhile_cons, if_pos (by simpa using hc)]
    rw [ih h.2]

/-- A list containing the separator is strictly cut by its first run. -/
lemma takeWhile_ne_self_of_mem (t : PyStr) (h : '_' ∈ t) :
    t.takeWhile (fun c => c != '_') ≠ t := by
  induction t with
  | nil => cases h
  | cons c rest ih =>
    rw [List.takeWhile_cons]
    by_cases hc : c = '_'
    · rw [if_neg (by simp [hc])]
      simp
    · rw [if_pos (by simpa using hc)]
      intro heq
      rw [List.cons.injEq] at heq
      have hmem : '_' ∈ rest := by
        rcases List.mem_cons.mp h with h1 | h1
        · exact absurd h1.symm hc
        · exact h1
      exact ih hmem heq.2

/-- C9: the `add_watchlist_<TICKER>` payload built by
`send_stock_analysis` round-trips through the callback parse
(`split("_")[2]`) exactly when the ticker has no underscore; a ticker
with an underscore parses back as only its part before the first
underscore, so the round trip fails. -/
theorem add_watchlist_payload_round_trip (ticker : PyStr) :
    (∀ provider sd addPayload ovPayload,
        send_stock_analysis provider ticker =
          .analysis sd addPayload ovPayload →
        addPayload = pystr "add_watchlist_" ++ ticker) ∧
    ('_' ∉ ticker →
        parseAddWatchlistPayload (pystr "add_watchlist_" ++ ticker) =
          some ticker) ∧
    ('_' ∈ ticker →
        parseAddWatchlistPayload (pystr "add_watchlist_" ++ ticker) =
          some (ticker.takeWhile (fun c => c != '_')) ∧
        parseAddWatchlistPayload (pystr "add_watchlist_" ++ ticker) ≠
          some ticker) := by
  have hparse : parseAddWatchlistPayload (pystr "add_watchlist_" ++ ticker) =
      some (ticker.takeWhile (fun c => c != '_')) := by
    unfold parseAddWatchlistPayload
    rw [pySplitOn_payload]
    cases hs : pySplitOn '_' ticker with
    | nil => exact absurd hs (pySplitOn_ne_nil '_' ticker)
    | cons r rs =>
      have := pySplitOn_head '_' ticker
      rw [hs] at this
      simp only [List.head?_cons, Option.some.injEq] at this
      simp [this]
  refine ⟨?_, ?_, ?_⟩
  · intro provider sd addPayload ovPayload h
    unfold send_stock_analysis at h
    cases hq : get_stock_data (provider ticker) with
    | none => rw [hq] at h; cases h
    | some q =>
      rw [hq] at h
      cases h
      rfl
  · intro hnot
    rw [hparse, takeWhile_eq_self_of_not_mem ticker hnot]
  · intro hmem
    refine ⟨hparse, ?_⟩
    rw [hparse]
    intro heq
    rw [Option.some.injEq] at heq
    exact takeWhile_ne_self_of_mem ticker hmem heq

/-! ## Claim about the overview description truncation -/

/-- C7: when the overview carries a `Description` string longer than 500
characters, the rendered overview holds exactly its first 500 characters
followed by the `...` continuation marker. -/
theorem overview_description_truncated (resp : FetchOutcome)
    (fields : List (PyStr × Json)) (d : PyStr)
    (hov : get_company_overview resp = some (.obj fields))
    (hd : assocLookup fields (pystr "Description") = some (.str d))
    (hlen : 500 < d.length) :
    send_company_overview resp = .rendered (d.take 500 ++ pystr "...") ∧
    (d.take 500).length = 500 := by
  have hfrag : overviewDescriptionFragment (.obj fields) =
      .ok (d.take 500 ++ pystr "...") := by
    simp [overviewDescriptionFragment, rawGet, hd]
  constructor
  · simp [send_company_overview, hov, hfrag]
  · rw [List.length_take]
    omega

/-- The concrete overview body for the C7 witness: a valid `Symbol`
marker and a 501-character description. -/
def overviewRespLong : FetchOutcome :=
  .body (.obj [(pystr "Symbol", .str (pystr "AAPL")),
               (pystr "Description", .str (List.replicate 501 'a'))])

/-- Witness for C7 at a concrete 501-character description. -/
theorem overview_description_truncated_witness :
    send_company_overview overviewRespLong =
      .rendered ((List.replicate 501 'a').take 500 ++ pystr "...") ∧
    ((List.replicate 501 'a').take 500).length = 500 :=
  overview_description_truncated overviewRespLong
    [(pystr "Symbol", .str (pystr "AAPL")),
     (pystr "Description", .str (List.replicate 501 'a'))]
    (List.replicate 501 'a') rfl rfl (by rw [List.length_replicate]; omega)

/-! ## Claim about the quote client -/

/-- Inverting a successful `quoteOfFields`: every conversion succeeded
and the record fields are its results. -/
lemma quoteOfFields_ok {q : List (PyStr × Json)} {quote : Quote}
    (h : quoteOfFields q = .ok quote) :
    quote.symbol = rawGet q (pystr "01. symbol") (.str []) ∧
    floatOfGet q (pystr "05. price") = .ok quote.price ∧
    floatOfGet q (pystr "09. change") = .ok quote.change ∧
    quote.change_percent =
      rawGet q (pystr "10. change percent") (.str (pystr "0%")) ∧
    intOfGet q (pystr "06. volume") = .ok quote.volume ∧
    floatOfGet q (pystr "03. high") = .ok quote.high ∧
    floatOfGet q (pystr "04. low") = .ok quote.low ∧
    floatOfGet q (pystr "02. open") = .ok quote.open_price ∧
    floatOfGet q (pystr "08. previous close") = .ok quote.previous_close := by
  unfold quoteOfFields at h
  cases h05 : floatOfGet q (pystr "05. price") with
  | error e => rw [h05] at h; cases h
  | ok price =>
  rw [h05] at h
  cases h09 : floatOfGet q (pystr "09. change") with
  | error e => rw [h09] at h; cases h
  | ok change =>
  rw [h09] at h
  cases h06 : intOfGet q (pystr "06. volume") with
  | error e => rw [h06] at h; cases h
  | ok volume =>
  rw [h06] at h
  cases h03 : floatOfGet q (pystr "03. high") with
  | error e => rw [h03] at h; cases h
  | ok high =>
  rw [h03] at h
  cases h04 : floatOfGet q (pystr "04. low") with
  | error e => rw [h04] at h; cases h
  | ok low =>
  rw [h04] at h
  cases h02 : floatOfGet q (pystr "02. open") with
  | error e => rw [h02] at h; cases h
  | ok open_price =>
  rw [h02] at h
  cases h08 : floatOfGet q (pystr "08. previous close") with
  | error e => rw [h08] at h; cases h
  | ok previous_close =>
  rw [h08] at h
  cases h
  exact ⟨rfl, rfl, rfl, rfl, rfl, rfl, rfl, rfl, rfl⟩

/-- A missing field makes `float(quote.get(key, 0))` the default `0`. -/
lemma floatOfGet_of_missing {q : List (PyStr × Json)} {key : PyStr} {v : Rat}
    (hmiss : assocLookup q key = none) (h : floatOfGet q key = .ok v) :
    v = 0 := by
  unfold floatOfGet at h
  rw [hmiss] at h
  cases h
  rfl

/-- A missing field makes `int(quote.get(key, 0))` the default `0`. -/
lemma intOfGet_of_missing {q : List (PyStr × Json)} {key : PyStr} {v : Int}
    (hmiss : assocLookup q key = none) (h : intOfGet q key = .ok v) :
    v = 0 := by
  unfold intOfGet at h
  rw [hmiss] at h
  cases h
  rfl

/-- A missing field makes the unconverted `quote.get(key, d)` its default. -/
lemma rawGet_of_missing {q : List (PyStr × Json)} {key : PyStr} {d : Json}
    (hmiss : assocLookup q key = none) : rawGet q key d = d := by
  unfold rawGet
  rw [hmiss]

/-- C3: for every provider response, `get_stock_data` either returns a
fully populated record — each missing numeric source field replaced by
`0` and a missing change-percent field by `"0%"` (and a missing symbol
by the empty string) — or returns `none`; every exception the `try` body
raises (transport error, malformed body, unparsable field, non-object
values) is caught and becomes `none`, never a raise to the caller. -/
theorem get_stock_data_total_with_defaults (resp : FetchOutcome) :
    (∀ e, getStockDataTry resp = .error e → get_stock_data resp = none) ∧
    (∀ quote, get_stock_data resp = some quote →
      ∃ fields q, resp = .body (.obj fields) ∧
        assocLookup fields (pystr "Global Quote") = some (.obj q) ∧
        (assocLookup q (pystr "01. symbol") = none →
          quote.symbol = .str []) ∧
        (assocLookup q (pystr "05. price") = none → quote.price = 0) ∧
        (assocLookup q (pystr "09. change") = none → quote.change = 0) ∧
        (assocLookup q (pystr "10. change percent") = none →
          quote.change_percent = .str (pystr "0%")) ∧
        (assocLookup q (pystr "06. volume") = none → quote.volume = 0) ∧
        (assocLookup q (pystr "03. high") = none → quote.high = 0) ∧
        (assocLookup q (pystr "04. low") = none → quote.low = 0) ∧
        (assocLookup q (pystr "02. open") = none → quote.open_price = 0) ∧
        (assocLookup q (pystr "08. previous close") = none →
          quote.previous_close = 0)) := by
  constructor
  · intro e he
    unfold get_stock_data
    rw [he]
  · intro quote hq
    cases resp with
    | raises => simp [get_stock_data, getStockDataTry] at hq
    | body j =>
      cases j with
      | str s =>
        by_cases hc : pyContains (pystr "Global Quote") s = true
        · simp [get_stock_data, getStockDataTry, hc] at hq
        · simp [get_stock_data, getStockDataTry, hc] at hq
      | obj fields =>
        cases hgq : assocLookup fields (pystr "Global Quote") with
        | none => simp [get_stock_data, getStockDataTry, hgq] at hq
        | some gq =>
          cases gq with
          | str s => simp [get_stock_data, getStockDataTry, hgq] at hq
          | obj q =>
            cases hqf : quoteOfFields q with
            | error e =>
              simp [get_stock_data, getStockDataTry, hgq, hqf] at hq
            | ok quote2 =>
              simp [get_stock_data, getStockDataTry, hgq, hqf] at hq
              subst hq
              obtain ⟨hsym, h05, h09, hpct, h06, h03, h04, h02, h08⟩ :=
                quoteOfFields_ok hqf
              refine ⟨fields, q, rfl, hgq, ?_, ?_, ?_, ?_, ?_, ?_, ?_, ?_, ?_⟩
              · intro hm; rw [hsym, rawGet_of_missing hm]
              · intro hm; exact floatOfGet_of_missing hm h05
              · intro hm; exact floatOfGet_of_missing hm h09
              · intro hm; rw [hpct, rawGet_of_missing hm]
              · intro hm; exact intOfGet_of_missing hm h06
              · intro hm; exact floatOfGet_of_missing hm h03
              · intro hm; exact floatOfGet_of_missing hm h04
              · intro hm; exact floatOfGet_of_missing hm h02
              · intro hm; exact floatOfGet_of_missing hm h08

/-! ## Claim about the watch-list render -/

/-- The render loop (`text += line` per ticker) appends one line per
ticker: folding the append is mapping the line builder. -/
lemma foldl_append_line (provider : Provider) (l : List PyStr)
    (acc : List WatchLine) :
    l.foldl (fun acc t => acc ++ [watchLineFor provider t]) acc =
      acc ++ l.map (watchLineFor provider) := by
  induction l generalizing acc with
  | nil => simp
  | cons t rest ih => simp [List.foldl_cons, ih]

/-- C6: a nonempty watch-list renders to exactly one line per stored
ticker, in stored order; a ticker whose fetch succeeds gets a
price/percent line and a ticker whose fetch returns absent gets the
data-unavailable line, so one failed fetch never drops the rest. -/
theorem watchlist_render_per_ticker (provider : Provider)
    (table : List WatchRow) (uid : Int)
    (h : get_watchlist table uid ≠ []) :
    ∃ lines, watchlist_command provider table uid = .listing lines ∧
      lines.length = (get_watchlist table uid).length ∧
      (∀ i (hi : i < (get_watchlist table uid).length),
        lines[i]? =
          some (watchLineFor provider ((get_watchlist table uid).get ⟨i, hi⟩))) ∧
      (∀ t sd, get_stock_data (provider t) = some sd →
        watchLineFor provider t =
          .data (if sd.change > 0 then pystr "📈" else pystr "📉") t
            sd.price sd.change_percent) ∧
      (∀ t, get_stock_data (provider t) = none →
        watchLineFor provider t = .unavailable t) := by
  refine ⟨(get_watchlist table uid).map (watchLineFor provider),
    ?_, by simp, ?_, ?_, ?_⟩
  · unfold watchlist_command
    rw [if_neg (by simpa using h), foldl_append_line]
    simp
  · intro i hi
    simp [List.getElem?_map, List.getElem?_eq_getElem hi]
  · intro t sd hsd
    unfold watchLineFor
    rw [hsd]
  · intro t ht
    unfold watchLineFor
    rw [ht]

/-- The concrete two-ticker table for the C6 witness. -/
def watchTable : List WatchRow :=
  [{ user_id := 7, ticker := pystr "AAPL" },
   { user_id := 7, ticker := pystr "ZZZZINVALID" }]

/-- The concrete provider for the C6 witness: a quote body for `AAPL`,
a transport failure for everything else. -/
def watchProvider : Provider := fun t =>
  if t = pystr "AAPL" then
    .body (.obj [(pystr "Global Quote",
      .obj [(pystr "05. price", .str (pystr "150.00"))])])
  else .raises

/-- Witness for C6 on the `["AAPL", "ZZZZINVALID"]` table where the
second fetch fails. -/
theorem watchlist_render_per_ticker_witness :
    ∃ lines, watchlist_command watchProvider watchTable 7 = .listing lines ∧
      lines.length = (get_watchlist watchTable 7).length ∧
      (∀ i (hi : i < (get_watchlist watchTable 7).length),
        lines[i]? =
          some (watchLineFor watchProvider
            ((get_watchlist watchTable 7).get ⟨i, hi⟩))) ∧
      (∀ t sd, get_stock_data (watchProvider t) = some sd →
        watchLineFor watchProvider t =
          .data (if sd.change > 0 then pystr "📈" else pystr "📉") t
            sd.price sd.change_percent) ∧
      (∀ t, get_stock_data (watchProvider t) = none →
        watchLineFor watchProvider t = .unavailable t) :=
  watchlist_render_per_ticker watchProvider watchTable 7 (by decide)

/-! ## Claims about the calculator handler -/

/-- C2: a calculator input whose three tokens parse but whose invested
amount is zero makes the division raise `ZeroDivisionError`, which the
catch-all handler turns into the templated format-error answer with the
state cleared — the fault never propagates out of the handler. -/
theorem calculator_zero_invested_format_error (provider : Provider)
    (text ticker sharesStr buyStr : PyStr) (shares : Int) (buy : Rat)
    (sd : Quote)
    (hsplit : pySplitWs (pyStrip text) = [ticker, sharesStr, buyStr])
    (hshares : pyIntParse sharesStr = some shares)
    (hbuy : pyFloatParse buyStr = some buy)
    (hfetch : get_stock_data (provider (pyUpper ticker)) = some sd)
    (hzero : (shares : Rat) * buy = 0) :
    process_calculator provider text = (.idle, .formatError) := by
  simp [process_calculator, calcTry, hsplit, hshares, hbuy, hfetch, hzero]

/-- The provider for the C2 witness: an empty `Global Quote` object, so
the fetch succeeds with an all-default quote. -/
def zeroCalcProvider : Provider := fun _ =>
  .body (.obj [(pystr "Global Quote", .obj [])])

/-- The unevaluated rational the parser builds for `"0"`. -/
def parsedZero : Rat := ((1 : Int) : Rat) * ((0 : Nat) : Rat)

/-- Evaluating the parse of the token `"0"`. -/
lemma pyFloatParse_zero : pyFloatParse (pystr "0") = some (0 : Rat) := by
  rw [show pyFloatParse (pystr "0") = some parsedZero from rfl]
  norm_num [parsedZero]

/-- Witness for C2 on the concrete input `AAPL 10 0`. -/
theorem calculator_zero_invested_format_error_witness :
    process_calculator zeroCalcProvider (pystr "AAPL 10 0") =
      (ConvState.idle, CalcReply.formatError) :=
  calculator_zero_invested_format_error zeroCalcProvider
    (pystr "AAPL 10 0") (pystr "AAPL") (pystr "10") (pystr "0") 10 0
    { symbol := .str [], price := 0, change := 0,
      change_percent := .str (pystr "0%"), volume := 0, high := 0,
      low := 0, open_price := 0, previous_close := 0 }
    (by decide) (by decide) pyFloatParse_zero rfl (by norm_num)

/-- C8: a calculator input whose tokens parse, whose fetch succeeds and
whose invested amount is nonzero renders a result whose quantities obey
`invested = shares * buyPrice`, `currentValue = shares * currentPrice`,
`profitLoss = currentValue - invested`,
`profitPercent = profitLoss / invested * 100`, and whose directional
indicator is chosen by `profitLoss > 0`. -/
theorem calculator_formulas (provider : Provider)
    (text ticker sharesStr buyStr : PyStr) (shares : Int) (buy : Rat)
    (sd : Quote)
    (hsplit : pySplitWs (pyStrip text) = [ticker, sharesStr, buyStr])
    (hshares : pyIntParse sharesStr = some shares)
    (hbuy : pyFloatParse buyStr = some buy)
    (hfetch : get_stock_data (provider (pyUpper ticker)) = some sd)
    (hnz : (shares : Rat) * buy ≠ 0) :
    ∃ out, process_calculator provider text = (.idle, .calcResult out) ∧
      out.ticker = pyUpper ticker ∧
      out.shares = shares ∧
      out.buy_price = buy ∧
      out.current_price = sd.price ∧
      out.total_invested = (out.shares : Rat) * out.buy_price ∧
      out.current_value = (out.shares : Rat) * out.current_price ∧
      out.profit_loss = out.current_value - out.total_invested ∧
      out.profit_percent = out.profit_loss / out.total_invested * 100 ∧
      out.profit_emoji =
        (if out.profit_loss > 0 then pystr "📈" else pystr "📉") := by
  refine ⟨{ ticker := pyUpper ticker, current_price := sd.price,
            shares := shares, buy_price := buy,
            total_invested := (shares : Rat) * buy,
            current_value := (shares : Rat) * sd.price,
            profit_loss := (shares : Rat) * sd.price - (shares : Rat) * buy,
            profit_percent :=
              ((shares : Rat) * sd.price - (shares : Rat) * buy) /
                ((shares : Rat) * buy) * 100,
            profit_emoji :=
              if (shares : Rat) * sd.price - (shares : Rat) * buy > 0 then
                pystr "📈" else pystr "📉" },
    ?_, rfl, rfl, rfl, rfl, rfl, rfl, rfl, rfl, rfl⟩
  simp [process_calculator, calcTry, hsplit, hshares, hbuy, hfetch, hnz]

/-- The provider for the C8 witness: a quote whose price parses to
`160.00`. -/
def priceProvider : Provider := fun _ =>
  .body (.obj [(pystr "Global Quote",
    .obj [(pystr "05. price", .str (pystr "160.00"))])])

/-- The quote `priceProvider` yields. -/
def quote160 : Quote :=
  { symbol := .str [], price := 160, change := 0,
    change_percent := .str (pystr "0%"), volume := 0, high := 0,
    low := 0, open_price := 0, previous_close := 0 }

/-- The unevaluated rational the parser builds for `"150.50"`. -/
def parsedBuyPrice : Rat :=
  ((1 : Int) : Rat) *
    (((150 : Nat) : Rat) + ((50 : Nat) : Rat) / (10 : Rat) ^ (2 : Nat))

/-- Evaluating the parse of the token `"150.50"`. -/
lemma pyFloatParse_150_50 : pyFloatParse (pystr "150.50") = some (301 / 2 : Rat) := by
  rw [show pyFloatParse (pystr "150.50") = some parsedBuyPrice from rfl]
  norm_num [parsedBuyPrice]

/-- The unevaluated rational the parser builds for `"160.00"`. -/
def parsedCurrentPrice : Rat :=
  ((1 : Int) : Rat) *
    (((160 : Nat) : Rat) + ((0 : Nat) : Rat) / (10 : Rat) ^ (2 : Nat))

/-- The quote `priceProvider` yields, before evaluating the price. -/
def quote160raw : Quote :=
  { symbol := .str [], price := parsedCurrentPrice, change := 0,
    change_percent := .str (pystr "0%"), volume := 0, high := 0,
    low := 0, open_price := 0, previous_close := 0 }

/-- Evaluating the whole fetch for the C8 witness. -/
lemma priceProvider_fetch :
    get_stock_data (priceProvider (pyUpper (pystr "AAPL"))) = some quote160 := by
  rw [show get_stock_data (priceProvider (pyUpper (pystr "AAPL"))) =
      some quote160raw from rfl]
  norm_num [quote160, quote160raw, parsedCurrentPrice, Quote.mk.injEq]

/-- Witness for C8 on the concrete input `AAPL 10 150.50` with current
price `160.00`: invested `1505`, current value `1600`, profit `95`,
profit percent within `0.01` of `6.31`, indicator up. -/
theorem calculator_formulas_witness :
    ∃ out, process_calculator priceProvider (pystr "AAPL 10 150.50") =
        (ConvState.idle, CalcReply.calcResult out) ∧
      out.total_invested = 1505 ∧ out.current_value = 1600 ∧
      out.profit_loss = 95 ∧ |out.profit_percent - 631 / 100| < 1 / 100 ∧
      out.profit_emoji = pystr "📈" := by
  obtain ⟨out, heq, hticker, hsh, hbp, hcp, hti, hcv, hpl, hpp, hem⟩ :=
    calculator_formulas priceProvider (pystr "AAPL 10 150.50")
      (pystr "AAPL") (pystr "10") (pystr "150.50") 10 (301 / 2) quote160
      (by decide) (by decide) pyFloatParse_150_50 priceProvider_fetch
      (by norm_num)
  have hcp2 : out.current_price = 160 := hcp.trans rfl
  have hti2 : out.total_invested = 1505 := by
    rw [hti, hsh, hbp]; norm_num
  have hcv2 : out.current_value = 1600 := by
    rw [hcv, hsh, hcp2]; norm_num
  have hpl2 : out.profit_loss = 95 := by
    rw [hpl, hcv2, hti2]; norm_num
  have hpp2 : out.profit_percent = 1900 / 301 := by
    rw [hpp, hpl2, hti2]; norm_num
  refine ⟨out, heq, hti2, hcv2, hpl2, ?_, ?_⟩
  · rw [hpp2]
    rw [show (1900 : Rat) / 301 - 631 / 100 = 69 / 30100 by norm_num]
    rw [abs_of_pos (by norm_num)]
    norm_num
  · rw [hem, hpl2]
    norm_num

/-! ## Claim about the post-handler conversation state -/

/-- The one configuration in which the calculator handler exits through
the early `return`: the three tokens parse but the quote fetch returns
absent. -/
def calcStuck (provider : Provider) (text : PyStr) : Prop :=
  ∃ ticker sharesStr buyStr shares buy,
    pySplitWs (pyStrip text) = [ticker, sharesStr, buyStr] ∧
    pyIntParse sharesStr = some shares ∧
    pyFloatParse buyStr = some buy ∧
    get_stock_data (provider (pyUpper ticker)) = none

/-- The `try` block exits through the early `return` exactly in the
`calcStuck` configuration. -/
lemma calcTry_earlyReturn_iff (provider : Provider) (text : PyStr) :
    (∃ r, calcTry provider text = .ok (.earlyReturn r)) ↔
      calcStuck provider text := by
  unfold calcTry calcStuck
  cases hs : pySplitWs (pyStrip text) with
  | nil => simp
  | cons t l1 =>
    cases l1 with
    | nil => simp
    | cons s l2 =>
      cases l2 with
      | nil => simp
      | cons b l3 =>
        cases l3 with
        | cons d l4 => simp
        | nil =>
          cases hi : pyIntParse s with
          | none => simp [hi]
          | some shares =>
            cases hb : pyFloatParse b with
            | none => simp [hi, hb]
            | some buy =>
              cases hf : get_stock_data (provider (pyUpper t)) with
              | none =>
                simp only [hi, hb, hf]
                simp
                exact ⟨t, s, b, ⟨rfl, rfl, rfl⟩, ⟨shares, hi⟩, ⟨buy, hb⟩, hf⟩
              | some sd =>
                by_cases hz : (shares : Rat) * buy = 0
                · simp [hi, hb, hf, hz]
                · simp [hi, hb, hf, hz]

/-- C1 counterexample provider: every fetch raises, so every quote is
absent. -/
def absentProvider : Provider := fun _ => .raises

/-- C1 as stated is false: with a parseable calculator input and an
absent quote, the handler returns before `state.clear()`, so the user is
left in the calculator-input state, not `Idle`. -/
theorem calculator_state_not_cleared_on_absent_quote :
    (process_calculator absentProvider (pystr "AAPL 10 150.50")).1 ≠
      ConvState.idle := by
  decide

/-- C1 amended: after the ticker handler the state is always `Idle`; after
the calculator handler the state is `Idle` in every case except when the
input parses as three tokens and the quote fetch returns absent, in
which case the handler exits early and stays in the calculator state. -/
theorem text_handlers_end_idle_unless_calc_fetch_absent
    (provider : Provider) (text : PyStr) :
    (process_ticker provider text).1 = ConvState.idle ∧
    ((process_calculator provider text).1 = ConvState.awaitingCalc ↔
      calcStuck provider text) ∧
    ((process_calculator provider text).1 = ConvState.idle ↔
      ¬ calcStuck provider text) := by
  have hmain : (process_calculator provider text).1 = ConvState.awaitingCalc ↔
      calcStuck provider text := by
    rw [← calcTry_earlyReturn_iff]
    unfold process_calculator
    cases h : calcTry provider text with
    | error e => simp
    | ok ex =>
      cases ex with
      | earlyReturn r => exact ⟨fun _ => ⟨r, rfl⟩, fun _ => rfl⟩
      | done r => simp
  have hdich : (process_calculator provider text).1 = ConvState.idle ↔
      ¬ (process_calculator provider text).1 = ConvState.awaitingCalc := by
    unfold process_calculator
    cases h : calcTry provider text with
    | error e => simp
    | ok ex => cases ex with
      | earlyReturn r => simp
      | done r => simp
  exact ⟨rfl, hmain, by rw [hdich, hmain]⟩

end FinancialBot
